import Mathlib

/-!
# ChirpChirp core API — verification of the result-composition pipeline

A shallow embedding of the request handlers in `src/index.ts` (the current
version of the file, lines 1–311): the `GET /images` pipeline
(time-window resolution, count query, page fetch, attribution loading,
grouping, validity/species filtering, enrichment, pagination metadata),
the `GET /images/:id` handler and the `GET /species` aggregator.

Modelling conventions:
* The relational store is a `DB` value: a list of image rows and a list of
  attribution rows, each list in the order the store returns rows when no
  `ORDER BY` is given ("arrival order").
* Timestamps (`taken_on`, the `Date.getTime()` clock) are integers
  (milliseconds since the epoch); `gte` on ISO timestamps is integer `≤`.
* `ORDER BY x DESC` is modelled by `List.insertionSort` with the
  corresponding total relation; tie order among equal keys is unspecified
  in the spec, so any sorted permutation is a faithful model.
* Query parameters arrive already URL-decoded: a numeric parameter is the
  `Option Int` result of `parseInt` (`none` for an absent or non-numeric
  value, i.e. `NaN`), a string parameter is an `Option String` (`none`
  for absent).
* Storage failures (which abort the whole request, per the error-handling
  design) are outside the embedding: every handler models the success
  path, and each outcome records which queries were issued so that
  short-circuit properties are statable.
-/

namespace ChirpChirp

/-- An image row. Of the `images` columns, the pipeline reads only `id`
and `taken_on`; every other column is carried through the handlers
untouched (the `{...img}` spread) and never branched on, so only these
two fields are modelled. -/
structure Image where
  id : String
  taken_on : Int
deriving DecidableEq

/-- An attribution row (`attributions` table). `species` is `Option String`
because the column may be NULL ("missing"); `extra` is never read by any
handler and is omitted. -/
structure Attribution where
  image_id : String
  model_version : String
  species : Option String
  confidence : Int
deriving DecidableEq

/-- The relational store consumed by the service. -/
structure DB where
  images : List Image
  attributions : List Attribution
deriving DecidableEq

/-- Models the JS idiom `parseInt(x) || d` (index.ts:64-65): `parseInt`
yields `NaN` (here `none`) for an absent or non-numeric parameter, and
`||` replaces every falsy value — `NaN` and the number `0` — by the
default `d`. -/
def jsNumOr (v : Option Int) (d : Int) : Int :=
  match v with
  | some n => if n = 0 then d else n
  | none => d

/-- Models `(x as string) || d` (index.ts:67): `undefined` and the empty
string are falsy and fall back to the default. -/
def jsStrOr (v : Option String) (d : String) : String :=
  match v with
  | some s => if s = "" then d else s
  | none => d

/-- Truthiness normalisation of a `string | undefined` value: `undefined`
and `""` are falsy. This models both the `if (speciesFilter)` guard
(index.ts:179) and the `speciesFilter || null` echo (index.ts:204);
`some s` means the filter is supplied with the (non-empty) value `s`. -/
def jsTruthyStr (v : Option String) : Option String :=
  match v with
  | some s => if s = "" then none else some s
  | none => none

/-- Models `String.prototype.trim()`: strip whitespace from both ends.
(The code only ever compares the trimmed string against `""`.) -/
def jsTrim (s : String) : String :=
  ⟨((s.data.dropWhile Char.isWhitespace).reverse.dropWhile Char.isWhitespace).reverse⟩

/-- Milliseconds in one day, the unit of every time-range offset. -/
def msPerDay : Int := 24 * 60 * 60 * 1000

/-- The time-window resolver: the `switch (timeRange)` at index.ts:75-105.
`now` is `new Date().getTime()`. Returns the lower-bound instant, or
`none` ("no lower bound") for `All` and — via the `default` case — every
unrecognized token. -/
def resolveTimeWindow (timeRange : String) (now : Int) : Option Int :=
  if timeRange = "1D" then some (now - 1 * msPerDay)
  else if timeRange = "7D" then some (now - 7 * msPerDay)
  else if timeRange = "1M" then some (now - 30 * msPerDay)
  else if timeRange = "3M" then some (now - 90 * msPerDay)
  else if timeRange = "1YR" then some (now - 365 * msPerDay)
  else none

/-- The `gte("taken_on", dateThreshold)` condition, applied only when a
threshold is present (index.ts:111-113 and 122-124). A `null` threshold
(the ISO string is always truthy when non-null) means no constraint. -/
def matchesWindow (threshold : Option Int) (img : Image) : Bool :=
  match threshold with
  | none => true
  | some t => decide (t ≤ img.taken_on)

/-- The count query (index.ts:107-114): number of image rows matching the
time window only — no validity or species condition. -/
def countImages (db : DB) (threshold : Option Int) : Nat :=
  (db.images.filter (matchesWindow threshold)).length

/-- `ORDER BY taken_on DESC`: `a` may precede `b` iff `b.taken_on ≤ a.taken_on`. -/
def newestFirst (a b : Image) : Prop := b.taken_on ≤ a.taken_on

instance : DecidableRel newestFirst :=
  fun a b => inferInstanceAs (Decidable (b.taken_on ≤ a.taken_on))

instance : IsTotal Image newestFirst := ⟨fun a b => le_total b.taken_on a.taken_on⟩

instance : IsTrans Image newestFirst := ⟨fun _ _ _ h h' => le_trans h' h⟩

/-- The images query (index.ts:117-129): rows matching the time window,
ordered by `taken_on` descending, restricted by
`.range(offset, offset + limit - 1)` to the `limit` rows starting at
row `offset` (a window beyond the available rows yields the trailing
partial page, possibly empty). Negative bounds are clamped by `toNat`;
the requests the claims quantify over have `offset, limit ≥ 0`. -/
def fetchPage (db : DB) (threshold : Option Int) (offset limit : Int) : List Image :=
  (((db.images.filter (matchesWindow threshold)).insertionSort newestFirst).drop
      offset.toNat).take limit.toNat

/-- The attribution query (index.ts:146-150): all attribution rows whose
`image_id` is `.in` the given id list, in arrival order. -/
def pageAttributions (db : DB) (ids : List String) : List Attribution :=
  db.attributions.filter (fun a => ids.contains a.image_id)

/-- One step of the grouping reduce (index.ts:155-162): push `a` onto the
list at key `a.image_id`, creating the key (at the end, in object
insertion order) when absent. -/
def pushAttr (acc : List (String × List Attribution)) (a : Attribution) :
    List (String × List Attribution) :=
  match acc with
  | [] => [(a.image_id, [a])]
  | (k, v) :: rest =>
    if k = a.image_id then (k, v ++ [a]) :: rest else (k, v) :: pushAttr rest a

/-- `attributionsByImage` (index.ts:154-162): the reduce that groups the
loaded attributions by owning image id. -/
def groupReduce (attrs : List Attribution) : List (String × List Attribution) :=
  attrs.foldl pushAttr []

/-- Member access `attributionsByImage[id]`, with an absent key coerced to
`[]` exactly as both call sites do (`!attrs` at index.ts:170 rejects the
image just as an empty list does; `|| []` at index.ts:189). -/
def lookupGroup (m : List (String × List Attribution)) (id : String) : List Attribution :=
  match m.find? (fun p => p.1 == id) with
  | some p => p.2
  | none => []

/-- `attr.species && attr.species.trim() !== ""` (index.ts:172): a NULL
species is falsy, an empty string is falsy, otherwise the trimmed string
must be non-empty. -/
def validSpecies (a : Attribution) : Bool :=
  match a.species with
  | none => false
  | some s => s != "" && jsTrim s != ""

/-- The filter predicate of the result composer (index.ts:166-186):
keep an image iff its group has a valid-species attribution, and, when a
species filter is supplied (truthy), some attribution's species equals
the filter exactly (`===`). -/
def survives (grouped : List (String × List Attribution)) (speciesFilter : Option String)
    (img : Image) : Bool :=
  let attrs := lookupGroup grouped img.id
  if !(attrs.any validSpecies) then false
  else
    match speciesFilter with
    | some s => attrs.any (fun a => a.species == some s)
    | none => true

/-- An image enriched with its attribution group: the spread
`{...img, attributions: attributionsByImage[img.id] || []}`
(index.ts:187-190). -/
structure EnrichedImage where
  image : Image
  attributions : List Attribution
deriving DecidableEq

/-- The enrichment map (index.ts:187-190). -/
def enrich (grouped : List (String × List Attribution)) (img : Image) : EnrichedImage :=
  { image := img, attributions := lookupGroup grouped img.id }

/-- The `pagination` object of a `/images` response. `total` is
`count || 0` (the count query never returns null in the success path, and
`|| 0` is the identity on a number that is itself `0`); `totalPages` may
be negative when `limit` is, so it is an `Int`. -/
structure Pagination where
  page : Int
  limit : Int
  total : Nat
  totalPages : Int
deriving DecidableEq

/-- The `filters` echo object (index.ts:202-205). -/
structure Filters where
  timeRange : String
  species : Option String
deriving DecidableEq

/-- A `/images` response body. `filters` is `none` for the empty-page
early return (index.ts:134-142), which omits the key. -/
structure ImagesResponse where
  images : List EnrichedImage
  pagination : Pagination
  filters : Option Filters
deriving DecidableEq

/-- A `/images` response together with the attribution query the request
issued (`some ids` for `.in("image_id", ids)`), or `none` when the
pipeline short-circuited before that query. -/
structure ImagesOutcome where
  response : ImagesResponse
  attributionQuery : Option (List String)
deriving DecidableEq

/-- `Math.ceil((count || 0) / limit)` (index.ts:200) for a non-negative
`count` and a non-zero `limit` (the defaulting at index.ts:65 rules out
`limit = 0`, where JS would produce `Infinity`/`NaN`). Lean's `/` on
`Int` is Euclidean division: for `0 < limit` the usual `(a + b - 1) / b`
ceiling formula applies, and for `limit < 0` the quotient is nonpositive
and Euclidean division itself rounds up. `jsCeilDiv_eq_ceil` below proves
this equal to the mathematical ceiling. -/
def jsCeilDiv (count : Nat) (limit : Int) : Int :=
  if 0 < limit then ((count : Int) + limit - 1) / limit
  else (count : Int) / limit

/-- The `GET /images` handler (index.ts:62-211), success path. -/
def imagesHandler (db : DB) (now : Int) (pageParam limitParam : Option Int)
    (timeRangeParam : Option String) (speciesParam : Option String) : ImagesOutcome :=
  let page := jsNumOr pageParam 1
  let limit := jsNumOr limitParam 20
  let offset := (page - 1) * limit
  let timeRange := jsStrOr timeRangeParam "All"
  let speciesFilter := jsTruthyStr speciesParam
  let dateThreshold := resolveTimeWindow timeRange now
  let count := countImages db dateThreshold
  let images := fetchPage db dateThreshold offset limit
  if images.isEmpty then
    { response :=
        { images := []
          pagination := { page := page, limit := limit, total := 0, totalPages := 0 }
          filters := none }
      attributionQuery := none }
  else
    let imageIds := images.map (fun img => img.id)
    let attrs := pageAttributions db imageIds
    let grouped := groupReduce attrs
    let imagesWithAttributions :=
      (images.filter (survives grouped speciesFilter)).map (enrich grouped)
    { response :=
        { images := imagesWithAttributions
          pagination :=
            { page := page, limit := limit, total := count
              totalPages := jsCeilDiv count limit }
          filters := some { timeRange := timeRange, species := speciesFilter } }
      attributionQuery := some imageIds }

/-- The lower-bound instant a `/images` request resolves to: the defaulted
`timeRange` parameter fed to the resolver. -/
def requestWindow (tr : Option String) (now : Int) : Option Int :=
  resolveTimeWindow (jsStrOr tr "All") now

/-- The row offset of a `/images` request: `(page - 1) * limit` over the
defaulted parameters (index.ts:66). -/
def requestOffset (pp lp : Option Int) : Int :=
  (jsNumOr pp 1 - 1) * jsNumOr lp 20

/-- The page of image rows a `/images` request fetches. -/
def requestPage (db : DB) (now : Int) (pp lp : Option Int) (tr : Option String) : List Image :=
  fetchPage db (requestWindow tr now) (requestOffset pp lp) (jsNumOr lp 20)

/-- The grouped attribution map a `/images` request builds for its page. -/
def requestGroup (db : DB) (now : Int) (pp lp : Option Int) (tr : Option String) :
    List (String × List Attribution) :=
  groupReduce (pageAttributions db ((requestPage db now pp lp tr).map (fun img => img.id)))

/-- A `/images/:id` response body: either the structured not-found payload
(index.ts:226) or the image spread together with its attributions. -/
inductive ImageByIdResponse where
  | notFound (error : String) (status : Nat)
  | found (image : Image) (attributions : List Attribution)
deriving DecidableEq

/-- A `/images/:id` response together with whether the attribution query
for the id was issued. -/
structure ImageByIdOutcome where
  response : ImageByIdResponse
  attributionQueryIssued : Bool
deriving DecidableEq

/-- `ORDER BY confidence DESC` for the attribution queries of the
single-image endpoints. -/
def confidenceDesc (a b : Attribution) : Prop := b.confidence ≤ a.confidence

instance : DecidableRel confidenceDesc :=
  fun a b => inferInstanceAs (Decidable (b.confidence ≤ a.confidence))

instance : IsTotal Attribution confidenceDesc := ⟨fun a b => le_total b.confidence a.confidence⟩

instance : IsTrans Attribution confidenceDesc := ⟨fun _ _ _ h h' => le_trans h' h⟩

/-- The `GET /images/:id` handler (index.ts:214-248). `.single()` fails
with code `PGRST116` when no row matches the id (image ids are the
table's primary key, so several rows cannot match); the handler maps that
failure to the structured 404 payload and returns before the attribution
query. -/
def imageByIdHandler (db : DB) (id : String) : ImageByIdOutcome :=
  match db.images.find? (fun img => img.id == id) with
  | none => { response := .notFound "Image not found" 404, attributionQueryIssued := false }
  | some img =>
    { response :=
        .found img
          ((db.attributions.filter (fun a => a.image_id == id)).insertionSort confidenceDesc)
      attributionQueryIssued := true }

/-- One step of the species-count reduce (index.ts:280-288):
`acc[s] = (acc[s] || 0) + 1`, creating the key (at the end, in object
insertion order) when absent. -/
def bumpSpecies (acc : List (String × Nat)) (s : String) : List (String × Nat) :=
  match acc with
  | [] => [(s, 1)]
  | (k, n) :: rest =>
    if k = s then (k, n + 1) :: rest else (k, n) :: bumpSpecies rest s

/-- The body of the species-count reduce (index.ts:281-286): count the
attribution only when it passes the
`attr.species && attr.species.trim() !== ""` guard (index.ts:282). -/
def speciesStep (acc : List (String × Nat)) (a : Attribution) : List (String × Nat) :=
  match a.species with
  | none => acc
  | some s => if s != "" && jsTrim s != "" then bumpSpecies acc s else acc

/-- `speciesCounts` (index.ts:280-288): scan all attributions and count
occurrences of each valid species label. -/
def speciesCounts (attrs : List Attribution) : List (String × Nat) :=
  attrs.foldl speciesStep []

/-- Member access `speciesCounts[s] || 0`. -/
def lookupCount (m : List (String × Nat)) (s : String) : Nat :=
  match m.find? (fun p => p.1 == s) with
  | some p => p.2
  | none => 0

/-- One `{species, count}` entry of the `/species` response. -/
structure SpeciesEntry where
  species : String
  count : Nat
deriving DecidableEq

/-- The comparator `(a, b) => b.count - a.count`: `a` may precede `b` iff
`b.count ≤ a.count` (descending by count). -/
def countDesc (a b : SpeciesEntry) : Prop := b.count ≤ a.count

instance : DecidableRel countDesc :=
  fun a b => inferInstanceAs (Decidable (b.count ≤ a.count))

instance : IsTotal SpeciesEntry countDesc := ⟨fun a b => le_total b.count a.count⟩

instance : IsTrans SpeciesEntry countDesc := ⟨fun _ _ _ h h' => le_trans h' h⟩

/-- A `/species` response body. -/
structure SpeciesResponse where
  species : List SpeciesEntry
deriving DecidableEq

/-- The `GET /species` handler (index.ts:271-302): count species
occurrences over the whole attribution store (no time or owning-image
filter), materialize `Object.entries` in key insertion order, and sort by
count descending. -/
def speciesHandler (db : DB) : SpeciesResponse :=
  let counts := speciesCounts db.attributions
  let speciesArray :=
    (counts.map (fun p => SpeciesEntry.mk p.1 p.2)).insertionSort countDesc
  { species := speciesArray }

/-- A one-image store (the image has one valid attribution), used to
evaluate the handlers at concrete inputs. -/
def sampleDbOne : DB :=
  { images := [{ id := "A", taken_on := 100 }]
    attributions := [{ image_id := "A", model_version := "v1", species := some "Blue Jay", confidence := 9 }] }

/-- A two-image store: image `A` carries a `Blue Jay` and a `Crow`
attribution, image `B` carries none. -/
def sampleDbTwo : DB :=
  { images := [{ id := "A", taken_on := 100 }, { id := "B", taken_on := 200 }]
    attributions :=
      [{ image_id := "A", model_version := "v1", species := some "Blue Jay", confidence := 9 }
       , { image_id := "A", model_version := "v1", species := some "Crow", confidence := 5 }] }

/-- An attribution store with a blank label, a missing label, and two
species with counts 2 and 1, used to evaluate `/species`. -/
def sampleDbSpecies : DB :=
  { images := []
    attributions :=
      [{ image_id := "i", model_version := "v", species := some " ", confidence := 1 }
       , { image_id := "j", model_version := "v", species := none, confidence := 2 }
       , { image_id := "k", model_version := "v", species := some "Crow", confidence := 3 }
       , { image_id := "l", model_version := "v", species := some "Jay", confidence := 4 }
       , { image_id := "m", model_version := "v", species := some "Crow", confidence := 5 }] }

/-! ## Supporting lemmas -/

theorem lookupGroup_cons (k : String) (v : List Attribution)
    (m : List (String × List Attribution)) (id : String) :
    lookupGroup ((k, v) :: m) id = if k = id then v else lookupGroup m id := by
  by_cases h : k = id <;> simp [lookupGroup, List.find?_cons, h]

theorem lookupGroup_pushAttr (acc : List (String × List Attribution)) (a : Attribution)
    (id : String) :
    lookupGroup (pushAttr acc a) id =
      if a.image_id = id then lookupGroup acc id ++ [a] else lookupGroup acc id := by
  induction acc with
  | nil =>
    by_cases hid : a.image_id = id <;>
      simp [pushAttr, lookupGroup, List.find?_cons, hid]
  | cons p rest ih =>
    obtain ⟨k, v⟩ := p
    by_cases hk : k = a.image_id
    · subst hk
      by_cases hid : a.image_id = id <;>
        simp [pushAttr, lookupGroup_cons, hid]
    · by_cases hkid : k = id
      · have hne : ¬a.image_id = id := fun h => hk (hkid.trans h.symm)
        have hne2 : ¬id = a.image_id := fun h => hne h.symm
        simp [pushAttr, lookupGroup_cons, hk, hkid, hne, hne2]
      · simp [pushAttr, lookupGroup_cons, hk, hkid, ih]

theorem lookupGroup_foldl (attrs : List Attribution) (acc : List (String × List Attribution))
    (id : String) :
    lookupGroup (attrs.foldl pushAttr acc) id =
      lookupGroup acc id ++ attrs.filter (fun a => a.image_id == id) := by
  induction attrs generalizing acc with
  | nil => simp
  | cons a attrs ih =>
    rw [List.foldl_cons, ih, lookupGroup_pushAttr]
    by_cases h : a.image_id = id <;>
      simp [h, List.filter_cons]

/-- Looking up an image id in the grouped map yields exactly the loaded
attributions owned by that id, in arrival order. -/
theorem lookupGroup_groupReduce (attrs : List Attribution) (id : String) :
    lookupGroup (groupReduce attrs) id = attrs.filter (fun a => a.image_id == id) := by
  simpa [groupReduce, lookupGroup] using lookupGroup_foldl attrs [] id

/-- For an id that is in the queried id set, the grouped page attributions
at that id are all the store's attributions owned by the id. -/
theorem lookupGroup_pageAttributions (db : DB) (ids : List String) (id : String)
    (hid : id ∈ ids) :
    lookupGroup (groupReduce (pageAttributions db ids)) id =
      db.attributions.filter (fun a => a.image_id == id) := by
  rw [lookupGroup_groupReduce, pageAttributions, List.filter_filter]
  refine List.filter_congr fun a _ => ?_
  by_cases h : a.image_id = id
  · simp [h, hid]
  · simp [h]

/-- Every fetched page is a window of a list sorted newest-first, hence
itself pairwise newest-first. -/
theorem fetchPage_pairwise (db : DB) (threshold : Option Int) (offset limit : Int) :
    (fetchPage db threshold offset limit).Pairwise newestFirst := by
  have hs : ((db.images.filter (matchesWindow threshold)).insertionSort newestFirst).Pairwise
      newestFirst := List.sorted_insertionSort newestFirst _
  exact List.Pairwise.sublist ((List.take_sublist _ _).trans (List.drop_sublist _ _)) hs

/-- Shape of the `/images` outcome when the fetched page is empty: the
early return at index.ts:133-143. -/
theorem imagesHandler_of_empty (db : DB) (now : Int) (pp lp : Option Int)
    (tr sf : Option String) (h : requestPage db now pp lp tr = []) :
    imagesHandler db now pp lp tr sf =
      { response :=
          { images := []
            pagination :=
              { page := jsNumOr pp 1, limit := jsNumOr lp 20, total := 0, totalPages := 0 }
            filters := none }
        attributionQuery := none } := by
  rw [requestPage, requestWindow, requestOffset] at h
  simp [imagesHandler, h]

/-- Shape of the `/images` outcome when the fetched page is non-empty. -/
theorem imagesHandler_of_ne_nil (db : DB) (now : Int) (pp lp : Option Int)
    (tr sf : Option String) (h : requestPage db now pp lp tr ≠ []) :
    imagesHandler db now pp lp tr sf =
      { response :=
          { images :=
              ((requestPage db now pp lp tr).filter
                  (survives (requestGroup db now pp lp tr) (jsTruthyStr sf))).map
                (enrich (requestGroup db now pp lp tr))
            pagination :=
              { page := jsNumOr pp 1, limit := jsNumOr lp 20
                total := countImages db (requestWindow tr now)
                totalPages := jsCeilDiv (countImages db (requestWindow tr now)) (jsNumOr lp 20) }
            filters := some { timeRange := jsStrOr tr "All", species := jsTruthyStr sf } }
        attributionQuery := some ((requestPage db now pp lp tr).map (fun img => img.id)) } := by
  rw [requestPage, requestWindow, requestOffset] at h
  simp [imagesHandler, requestGroup, requestPage, requestWindow, requestOffset, h]

/-- The echoed `page` and `limit` fields are the defaulted parameters, in
both branches of the handler. -/
theorem imagesHandler_page_limit (db : DB) (now : Int) (pp lp : Option Int)
    (tr sf : Option String) :
    (imagesHandler db now pp lp tr sf).response.pagination.page = jsNumOr pp 1 ∧
      (imagesHandler db now pp lp tr sf).response.pagination.limit = jsNumOr lp 20 := by
  by_cases h : requestPage db now pp lp tr = []
  · rw [imagesHandler_of_empty db now pp lp tr sf h]
    exact ⟨rfl, rfl⟩
  · rw [imagesHandler_of_ne_nil db now pp lp tr sf h]
    exact ⟨rfl, rfl⟩

/-- The defaulted `limit` is never zero. -/
theorem jsNumOr_ne_zero (v : Option Int) (d : Int) (hd : d ≠ 0) : jsNumOr v d ≠ 0 := by
  cases v with
  | none => simpa [jsNumOr] using hd
  | some n =>
    by_cases hn : n = 0 <;> simp [jsNumOr, hn, hd]

/-- `jsCeilDiv` is the mathematical ceiling of the exact quotient, for any
non-zero `limit`. -/
theorem jsCeilDiv_eq_ceil (a : Nat) (b : Int) (hb : b ≠ 0) :
    jsCeilDiv a b = ⌈(a : ℚ) / (b : ℚ)⌉ := by
  rcases lt_or_gt_of_ne hb with hneg | hpos
  · rw [jsCeilDiv, if_neg (not_lt.mpr hneg.le)]
    have hdm : b * ((a : Int) / b) + (a : Int) % b = (a : Int) := Int.ediv_add_emod _ _
    have hr0 : 0 ≤ (a : Int) % b := Int.emod_nonneg _ hb
    have hrlt : (a : Int) % b < -b := by
      have hneg2 := Int.emod_neg (a : Int) (-b)
      rw [neg_neg] at hneg2
      rw [hneg2]
      exact Int.emod_lt_of_pos _ (by omega)
    have hbq : ((b : ℚ) : ℚ) < 0 := by exact_mod_cast hneg
    symm
    rw [Int.ceil_eq_iff]
    constructor
    · rw [lt_div_iff_of_neg hbq]
      have : (a : Int) < ((a : Int) / b - 1) * b := by nlinarith [hdm, hr0, hrlt]
      exact_mod_cast this
    · rw [div_le_iff_of_neg hbq]
      have : ((a : Int) / b) * b ≤ (a : Int) := by nlinarith [hdm, hr0]
      exact_mod_cast this
  · rw [jsCeilDiv, if_pos hpos]
    have hdm : b * (((a : Int) + b - 1) / b) + ((a : Int) + b - 1) % b = (a : Int) + b - 1 :=
      Int.ediv_add_emod _ _
    have hr0 : 0 ≤ ((a : Int) + b - 1) % b := Int.emod_nonneg _ hb
    have hrlt : ((a : Int) + b - 1) % b < b := Int.emod_lt_of_pos _ hpos
    have hbq : (0 : ℚ) < (b : ℚ) := by exact_mod_cast hpos
    symm
    rw [Int.ceil_eq_iff]
    constructor
    · rw [lt_div_iff₀ hbq]
      have : ((((a : Int) + b - 1) / b) - 1) * b < (a : Int) := by nlinarith [hdm, hr0, hrlt]
      exact_mod_cast this
    · rw [div_le_iff₀ hbq]
      have : (a : Int) ≤ (((a : Int) + b - 1) / b) * b := by nlinarith [hdm, hr0, hrlt]
      exact_mod_cast this

/-- `totalPages` is `0` when the count is `0`, whatever the limit. -/
theorem jsCeilDiv_zero (limit : Int) : jsCeilDiv 0 limit = 0 := by
  rw [jsCeilDiv]
  split_ifs with h
  · simpa using Int.ediv_eq_zero_of_lt (by omega) (by omega)
  · simp

/-- Decomposition of `/images` response membership: an enriched image is in
the output iff it is the enrichment of a fetched image that survives the
composer's filter. -/
theorem mem_imagesHandler (db : DB) (now : Int) (pp lp : Option Int) (tr sf : Option String)
    (e : EnrichedImage) :
    e ∈ (imagesHandler db now pp lp tr sf).response.images ↔
      ∃ img ∈ requestPage db now pp lp tr,
        survives (requestGroup db now pp lp tr) (jsTruthyStr sf) img = true ∧
          e = enrich (requestGroup db now pp lp tr) img := by
  by_cases h : requestPage db now pp lp tr = []
  · rw [imagesHandler_of_empty db now pp lp tr sf h]
    simp [h]
  · rw [imagesHandler_of_ne_nil db now pp lp tr sf h]
    simp only [List.mem_map, List.mem_filter]
    constructor
    · rintro ⟨img, ⟨hmem, hs⟩, rfl⟩
      exact ⟨img, hmem, hs, rfl⟩
    · rintro ⟨img, hmem, hs, rfl⟩
      exact ⟨img, ⟨hmem, hs⟩, rfl⟩

/-- The composer's predicate, unfolded: survive iff some attribution in
the group is valid, and, whenever the filter is supplied with value `s`,
some attribution's species is exactly `s`. -/
theorem survives_iff (grouped : List (String × List Attribution)) (sf : Option String)
    (img : Image) :
    survives grouped sf img = true ↔
      ((lookupGroup grouped img.id).any validSpecies = true ∧
        ∀ s, sf = some s →
          (lookupGroup grouped img.id).any (fun a => a.species == some s) = true) := by
  cases sf with
  | none => simp [survives]
  | some s =>
    by_cases hv : (lookupGroup grouped img.id).any validSpecies = true <;>
      simp [survives, hv]

theorem lookupCount_cons (k : String) (n : Nat) (m : List (String × Nat)) (s : String) :
    lookupCount ((k, n) :: m) s = if k = s then n else lookupCount m s := by
  by_cases h : k = s <;> simp [lookupCount, List.find?_cons, h]

theorem lookupCount_bumpSpecies (acc : List (String × Nat)) (s t : String) :
    lookupCount (bumpSpecies acc s) t =
      if s = t then lookupCount acc t + 1 else lookupCount acc t := by
  induction acc with
  | nil =>
    by_cases h : s = t <;> simp [bumpSpecies, lookupCount_cons, lookupCount, h]
  | cons p rest ih =>
    obtain ⟨k, n⟩ := p
    by_cases hk : k = s
    · subst hk
      by_cases ht : k = t <;> simp [bumpSpecies, lookupCount_cons, ht]
    · by_cases hkt : k = t
      · have hst : ¬s = t := fun h => hk (hkt.trans h.symm)
        have hts : ¬t = s := fun h => hst h.symm
        simp [bumpSpecies, lookupCount_cons, hk, hkt, hst, hts]
      · simp [bumpSpecies, lookupCount_cons, hk, hkt, ih]

theorem lookupCount_foldl (attrs : List Attribution) (acc : List (String × Nat)) (t : String) :
    lookupCount (attrs.foldl speciesStep acc) t =
      lookupCount acc t +
        (attrs.filter (fun a => a.species == some t && validSpecies a)).length := by
  induction attrs generalizing acc with
  | nil => simp
  | cons a attrs ih =>
    rw [List.foldl_cons, ih]
    rcases ha : a.species with _ | s
    · simp [speciesStep, ha, List.filter_cons, validSpecies]
    · by_cases hg : (s != "" && jsTrim s != "") = true
      · by_cases hst : s = t
        · subst hst
          simp [speciesStep, ha, hg, lookupCount_bumpSpecies, List.filter_cons, validSpecies]
          omega
        · simp [speciesStep, ha, hg, lookupCount_bumpSpecies, hst, List.filter_cons]
      · rw [Bool.not_eq_true] at hg
        simp [speciesStep, ha, hg, List.filter_cons, validSpecies]

/-- The count lookup for each valid label over the whole store. -/
theorem lookupCount_speciesCounts (attrs : List Attribution) (t : String) :
    lookupCount (speciesCounts attrs) t =
      (attrs.filter (fun a => a.species == some t && validSpecies a)).length := by
  simpa [speciesCounts, lookupCount] using lookupCount_foldl attrs [] t

theorem keys_bumpSpecies (acc : List (String × Nat)) (s : String) :
    (bumpSpecies acc s).map Prod.fst =
      if s ∈ acc.map Prod.fst then acc.map Prod.fst else acc.map Prod.fst ++ [s] := by
  induction acc with
  | nil => simp [bumpSpecies]
  | cons p rest ih =>
    obtain ⟨k, n⟩ := p
    by_cases hk : k = s
    · subst hk
      simp [bumpSpecies]
    · have hne : ¬s = k := fun h => hk h.symm
      by_cases hmem : s ∈ rest.map Prod.fst <;>
        simp [bumpSpecies, hk, hne, hmem, ih]

theorem keys_nodup_bumpSpecies (acc : List (String × Nat)) (s : String)
    (h : (acc.map Prod.fst).Nodup) : ((bumpSpecies acc s).map Prod.fst).Nodup := by
  rw [keys_bumpSpecies]
  split_ifs with hmem
  · exact h
  · rw [List.nodup_append]
    refine ⟨h, List.nodup_singleton s, fun a ha hs => ?_⟩
    rw [List.mem_singleton] at hs
    exact hmem (hs ▸ ha)

theorem keys_nodup_foldl (attrs : List Attribution) (acc : List (String × Nat))
    (h : (acc.map Prod.fst).Nodup) :
    (((attrs.foldl speciesStep acc)).map Prod.fst).Nodup := by
  induction attrs generalizing acc with
  | nil => simpa using h
  | cons a attrs ih =>
    rw [List.foldl_cons]
    refine ih _ ?_
    rcases ha : a.species with _ | s
    · simpa [speciesStep, ha] using h
    · by_cases hg : (s != "" && jsTrim s != "") = true <;>
        simp [speciesStep, ha, hg]
      · exact keys_nodup_bumpSpecies acc s h
      · exact h

theorem keys_nodup_speciesCounts (attrs : List Attribution) :
    ((speciesCounts attrs).map Prod.fst).Nodup := by
  simpa [speciesCounts] using keys_nodup_foldl attrs [] (by simp)

theorem lookupCount_of_mem (m : List (String × Nat)) (h : (m.map Prod.fst).Nodup)
    (p : String × Nat) (hp : p ∈ m) : lookupCount m p.1 = p.2 := by
  induction m with
  | nil => cases hp
  | cons q rest ih =>
    obtain ⟨k, n⟩ := q
    rw [List.map_cons, List.nodup_cons] at h
    rcases List.mem_cons.mp hp with rfl | hmem
    · simp [lookupCount_cons]
    · have hp1 : p.1 ∈ rest.map Prod.fst := List.mem_map_of_mem Prod.fst hmem
      have hne : k ≠ p.1 := fun hkp => h.1 (by rw [hkp]; exact hp1)
      rw [show p = (p.1, p.2) from rfl, lookupCount_cons, if_neg hne]
      exact ih h.2 hmem

theorem mem_fst_bumpSpecies (acc : List (String × Nat)) (s : String) (p : String × Nat)
    (hp : p ∈ bumpSpecies acc s) : p.1 = s ∨ p.1 ∈ acc.map Prod.fst := by
  induction acc with
  | nil => simp [bumpSpecies] at hp; simp [hp]
  | cons q rest ih =>
    obtain ⟨k, n⟩ := q
    by_cases hk : k = s
    · subst hk
      rw [bumpSpecies, if_pos rfl] at hp
      rcases List.mem_cons.mp hp with rfl | hmem
      · exact Or.inl rfl
      · exact Or.inr (by simp [List.mem_map_of_mem Prod.fst hmem])
    · rw [bumpSpecies, if_neg hk] at hp
      rcases List.mem_cons.mp hp with rfl | hmem
      · simp
      · rcases ih hmem with h | h
        · exact Or.inl h
        · exact Or.inr (by simp [h])

theorem keys_valid_foldl (attrs : List Attribution) (acc : List (String × Nat))
    (h : ∀ k ∈ acc.map Prod.fst, k ≠ "" ∧ jsTrim k ≠ "") :
    ∀ k ∈ (attrs.foldl speciesStep acc).map Prod.fst, k ≠ "" ∧ jsTrim k ≠ "" := by
  induction attrs generalizing acc with
  | nil => simpa using h
  | cons a attrs ih =>
    rw [List.foldl_cons]
    refine ih _ ?_
    rcases ha : a.species with _ | s
    · simpa [speciesStep, ha] using h
    · by_cases hg : (s != "" && jsTrim s != "") = true
      · rw [speciesStep, ha]
        simp only [hg, if_pos]
        intro k hk
        rcases List.mem_map.mp hk with ⟨p, hp, rfl⟩
        rcases mem_fst_bumpSpecies acc s p hp with hps | hpk
        · rw [hps]
          simpa [bne_iff_ne, Bool.and_eq_true] using hg
        · exact h _ hpk
      · rw [speciesStep, ha]
        simpa [hg] using h

theorem keys_valid_speciesCounts (attrs : List Attribution) :
    ∀ p ∈ speciesCounts attrs, p.1 ≠ "" ∧ jsTrim p.1 ≠ "" := by
  intro p hp
  exact keys_valid_foldl attrs [] (by simp) p.1 (List.mem_map_of_mem Prod.fst hp)

/-! ## Claims -/

/-- C1 (counterexample): the claim that an out-of-range `/images` page
still reports the true window count is false on the code. With a
one-image store and `page=2`, the fetched page is empty, the true window
count is `1`, yet the early return reports `total = 0` and
`totalPages = 0`. -/
theorem emptyPageMetadataCounterexample :
    requestPage sampleDbOne 0 (some 2) none none = [] ∧
      countImages sampleDbOne (requestWindow none 0) = 1 ∧
      (imagesHandler sampleDbOne 0 (some 2) none none none).response.pagination.total = 0 ∧
      (imagesHandler sampleDbOne 0 (some 2) none none none).response.pagination.total ≠
        countImages sampleDbOne (requestWindow none 0) ∧
      (imagesHandler sampleDbOne 0 (some 2) none none none).response.pagination.totalPages = 0 := by
  exact ⟨by decide, by decide, by decide, by decide, by decide⟩

/-- C1 (amended): for every `/images` request whose fetched page is empty
(in particular an offset window beyond the available rows), the response
has an empty images list and pagination metadata reporting `total = 0`
and `totalPages = 0` — not the true window count. -/
theorem emptyPageZeroedMetadata (db : DB) (now : Int) (pp lp : Option Int)
    (tr sf : Option String) (h : requestPage db now pp lp tr = []) :
    (imagesHandler db now pp lp tr sf).response.images = [] ∧
      (imagesHandler db now pp lp tr sf).response.pagination =
        { page := jsNumOr pp 1, limit := jsNumOr lp 20, total := 0, totalPages := 0 } := by
  rw [imagesHandler_of_empty db now pp lp tr sf h]
  exact ⟨rfl, rfl⟩

theorem emptyPageZeroedMetadata_witness :
    requestPage sampleDbOne 0 (some 2) none none = [] ∧
      (imagesHandler sampleDbOne 0 (some 2) none none none).response.pagination =
        { page := jsNumOr (some 2) 1, limit := jsNumOr none 20, total := 0, totalPages := 0 } :=
  ⟨by decide, (emptyPageZeroedMetadata sampleDbOne 0 (some 2) none none none (by decide)).2⟩

/-- C2: for every `/images` request and every image on the fetched page,
the image appears in the response iff it has an attribution with a
non-blank (post-trim) species label, and, whenever a species filter is
supplied (truthy, value `s`), some attribution's species equals `s`
exactly. -/
theorem imagesFilterMembership (db : DB) (now : Int) (pp lp : Option Int)
    (tr sf : Option String) (img : Image)
    (himg : img ∈ requestPage db now pp lp tr) :
    (∃ e ∈ (imagesHandler db now pp lp tr sf).response.images, e.image = img) ↔
      ((db.attributions.filter (fun a => a.image_id == img.id)).any validSpecies = true ∧
        ∀ s, jsTruthyStr sf = some s →
          (db.attributions.filter (fun a => a.image_id == img.id)).any
            (fun a => a.species == some s) = true) := by
  have hid : img.id ∈ (requestPage db now pp lp tr).map (fun img => img.id) :=
    List.mem_map_of_mem _ himg
  have hlg : lookupGroup (requestGroup db now pp lp tr) img.id =
      db.attributions.filter (fun a => a.image_id == img.id) := by
    rw [requestGroup]
    exact lookupGroup_pageAttributions db _ img.id hid
  constructor
  · rintro ⟨e, he, heq⟩
    rcases (mem_imagesHandler db now pp lp tr sf e).mp he with ⟨img2, _, hs2, rfl⟩
    have h2 : img2 = img := heq
    subst h2
    have h3 := (survives_iff _ _ _).mp hs2
    rwa [hlg] at h3
  · intro hcond
    refine ⟨enrich (requestGroup db now pp lp tr) img, ?_, rfl⟩
    refine (mem_imagesHandler db now pp lp tr sf _).mpr ⟨img, himg, ?_, rfl⟩
    refine (survives_iff _ _ _).mpr ?_
    rwa [hlg]

theorem imagesFilterMembership_witness :
    (⟨"A", 100⟩ : Image) ∈ requestPage sampleDbTwo 0 none none none ∧
      ((∃ e ∈ (imagesHandler sampleDbTwo 0 none none none (some "Blue Jay")).response.images,
          e.image = (⟨"A", 100⟩ : Image)) ↔
        ((sampleDbTwo.attributions.filter
              (fun a => a.image_id == (⟨"A", 100⟩ : Image).id)).any validSpecies = true ∧
          ∀ s, jsTruthyStr (some "Blue Jay") = some s →
            (sampleDbTwo.attributions.filter
                (fun a => a.image_id == (⟨"A", 100⟩ : Image).id)).any
              (fun a => a.species == some s) = true)) :=
  ⟨by decide,
    imagesFilterMembership sampleDbTwo 0 none none none (some "Blue Jay") ⟨"A", 100⟩ (by decide)⟩

/-- C3: for every `/images` request with a non-empty fetched page, the
pagination metadata is exactly the defaulted page and limit, the
time-window-only count as `total`, and `totalPages = ⌈total / limit⌉`;
the metadata does not depend on the species filter, and a zero total
always yields zero total pages. -/
theorem paginationMetadata (db : DB) (now : Int) (pp lp : Option Int) (tr sf : Option String)
    (h : requestPage db now pp lp tr ≠ []) :
    (imagesHandler db now pp lp tr sf).response.pagination =
        { page := jsNumOr pp 1, limit := jsNumOr lp 20
          total := countImages db (requestWindow tr now)
          totalPages := jsCeilDiv (countImages db (requestWindow tr now)) (jsNumOr lp 20) } ∧
      (imagesHandler db now pp lp tr sf).response.pagination.totalPages =
        ⌈(countImages db (requestWindow tr now) : ℚ) / (jsNumOr lp 20 : ℚ)⌉ ∧
      (∀ sf2, (imagesHandler db now pp lp tr sf2).response.pagination =
        (imagesHandler db now pp lp tr sf).response.pagination) ∧
      ∀ limit : Int, jsCeilDiv 0 limit = 0 := by
  have h1 : ∀ sf2 : Option String, (imagesHandler db now pp lp tr sf2).response.pagination =
      { page := jsNumOr pp 1, limit := jsNumOr lp 20
        total := countImages db (requestWindow tr now)
        totalPages := jsCeilDiv (countImages db (requestWindow tr now)) (jsNumOr lp 20) } :=
    fun sf2 => by rw [imagesHandler_of_ne_nil db now pp lp tr sf2 h]
  refine ⟨h1 sf, ?_, fun sf2 => (h1 sf2).trans (h1 sf).symm, jsCeilDiv_zero⟩
  rw [h1 sf]
  exact jsCeilDiv_eq_ceil _ _ (jsNumOr_ne_zero lp 20 (by decide))

theorem paginationMetadata_witness :
    requestPage sampleDbTwo 0 none none none ≠ [] ∧
      (imagesHandler sampleDbTwo 0 none none none none).response.pagination =
        { page := jsNumOr none 1, limit := jsNumOr none 20
          total := countImages sampleDbTwo (requestWindow none 0)
          totalPages :=
            jsCeilDiv (countImages sampleDbTwo (requestWindow none 0)) (jsNumOr none 20) } :=
  ⟨by decide, (paginationMetadata sampleDbTwo 0 none none none none (by decide)).1⟩

/-- C4: the time-window resolver maps `1D, 7D, 1M, 3M, 1YR` to `now`
minus 1, 7, 30, 90 and 365 days respectively, and maps `All` and every
other token to no lower bound (the `default` case — no error). -/
theorem timeWindowResolution (now : Int) :
    resolveTimeWindow "1D" now = some (now - 1 * msPerDay) ∧
      resolveTimeWindow "7D" now = some (now - 7 * msPerDay) ∧
      resolveTimeWindow "1M" now = some (now - 30 * msPerDay) ∧
      resolveTimeWindow "3M" now = some (now - 90 * msPerDay) ∧
      resolveTimeWindow "1YR" now = some (now - 365 * msPerDay) ∧
      resolveTimeWindow "All" now = none ∧
      ∀ t : String, t ≠ "1D" → t ≠ "7D" → t ≠ "1M" → t ≠ "3M" → t ≠ "1YR" →
        resolveTimeWindow t now = none := by
  refine ⟨rfl, rfl, rfl, rfl, rfl, rfl, ?_⟩
  intro t h1 h7 h1m h3m h1yr
  rw [resolveTimeWindow, if_neg h1, if_neg h7, if_neg h1m, if_neg h3m, if_neg h1yr]

theorem timeWindowResolution_witness :
    resolveTimeWindow "1D" 0 = some (0 - 1 * msPerDay) ∧ resolveTimeWindow "2W" 0 = none :=
  ⟨(timeWindowResolution 0).1,
    (timeWindowResolution 0).2.2.2.2.2.2 "2W" (by decide) (by decide) (by decide) (by decide)
      (by decide)⟩

/-- C5: each image surviving the filters carries its full attribution
group as loaded for the page — equal to all of the store's attributions
for that image, including ones not matching the species filter. -/
theorem imagesAttachFullGroup (db : DB) (now : Int) (pp lp : Option Int) (tr sf : Option String)
    (e : EnrichedImage) (he : e ∈ (imagesHandler db now pp lp tr sf).response.images) :
    e.attributions = lookupGroup (requestGroup db now pp lp tr) e.image.id ∧
      e.attributions = db.attributions.filter (fun a => a.image_id == e.image.id) := by
  rcases (mem_imagesHandler db now pp lp tr sf e).mp he with ⟨img, hmem, _, rfl⟩
  refine ⟨rfl, ?_⟩
  have hid : img.id ∈ (requestPage db now pp lp tr).map (fun img => img.id) :=
    List.mem_map_of_mem _ hmem
  show lookupGroup (requestGroup db now pp lp tr) img.id = _
  rw [requestGroup]
  exact lookupGroup_pageAttributions db _ img.id hid

theorem imagesAttachFullGroup_witness :
    (⟨⟨"A", 100⟩,
        [⟨"A", "v1", some "Blue Jay", 9⟩, ⟨"A", "v1", some "Crow", 5⟩]⟩ : EnrichedImage) ∈
        (imagesHandler sampleDbTwo 0 none none none (some "Blue Jay")).response.images ∧
      (⟨⟨"A", 100⟩,
          [⟨"A", "v1", some "Blue Jay", 9⟩, ⟨"A", "v1", some "Crow", 5⟩]⟩ :
            EnrichedImage).attributions =
        sampleDbTwo.attributions.filter
          (fun a =>
            a.image_id ==
              (⟨⟨"A", 100⟩,
                  [⟨"A", "v1", some "Blue Jay", 9⟩, ⟨"A", "v1", some "Crow", 5⟩]⟩ :
                    EnrichedImage).image.id) :=
  ⟨by decide,
    (imagesAttachFullGroup sampleDbTwo 0 none none none (some "Blue Jay")
        ⟨⟨"A", 100⟩, [⟨"A", "v1", some "Blue Jay", 9⟩, ⟨"A", "v1", some "Crow", 5⟩]⟩
        (by decide)).2⟩

/-- C6: the `/species` response has no blank or missing label; each
entry's count is the number of attributions across the whole store
carrying exactly that label; and entries are ordered by count
descending. -/
theorem speciesAggregate (db : DB) :
    (∀ e ∈ (speciesHandler db).species, e.species ≠ "" ∧ jsTrim e.species ≠ "") ∧
      (∀ e ∈ (speciesHandler db).species,
        e.count = (db.attributions.filter (fun a => a.species == some e.species)).length) ∧
      ((speciesHandler db).species.Pairwise fun a b => b.count ≤ a.count) := by
  have hperm : ((speciesHandler db).species).Perm
      ((speciesCounts db.attributions).map (fun p => SpeciesEntry.mk p.1 p.2)) := by
    simpa [speciesHandler] using
      List.perm_insertionSort countDesc
        ((speciesCounts db.attributions).map (fun p => SpeciesEntry.mk p.1 p.2))
  have hmem : ∀ e ∈ (speciesHandler db).species,
      ∃ p ∈ speciesCounts db.attributions, e = SpeciesEntry.mk p.1 p.2 := by
    intro e he
    rcases List.mem_map.mp (hperm.mem_iff.mp he) with ⟨p, hp, hpe⟩
    exact ⟨p, hp, hpe.symm⟩
  refine ⟨?_, ?_, ?_⟩
  · intro e he
    rcases hmem e he with ⟨p, hp, rfl⟩
    exact keys_valid_speciesCounts db.attributions p hp
  · intro e he
    rcases hmem e he with ⟨p, hp, rfl⟩
    have hval := keys_valid_speciesCounts db.attributions p hp
    have h1 : lookupCount (speciesCounts db.attributions) p.1 = p.2 :=
      lookupCount_of_mem _ (keys_nodup_speciesCounts _) p hp
    show p.2 = _
    rw [← h1, lookupCount_speciesCounts]
    refine congrArg List.length (List.filter_congr fun a _ => ?_)
    by_cases hsp : a.species = some p.1
    · have hv : validSpecies a = true := by
        simp [validSpecies, hsp, bne_iff_ne, hval.1, hval.2]
      simp [hsp, hv]
    · simp [hsp]
  · have hs : List.Sorted countDesc (speciesHandler db).species := by
      simpa [speciesHandler] using
        List.sorted_insertionSort countDesc
          ((speciesCounts db.attributions).map (fun p => SpeciesEntry.mk p.1 p.2))
    exact hs

theorem speciesAggregate_witness :
    (⟨"Crow", 2⟩ : SpeciesEntry) ∈ (speciesHandler sampleDbSpecies).species ∧
      ((⟨"Crow", 2⟩ : SpeciesEntry).species ≠ "" ∧
        jsTrim (⟨"Crow", 2⟩ : SpeciesEntry).species ≠ "") ∧
      (⟨"Crow", 2⟩ : SpeciesEntry).count =
        (sampleDbSpecies.attributions.filter
            (fun a => a.species == some (⟨"Crow", 2⟩ : SpeciesEntry).species)).length :=
  ⟨by decide, (speciesAggregate sampleDbSpecies).1 ⟨"Crow", 2⟩ (by decide),
    (speciesAggregate sampleDbSpecies).2.1 ⟨"Crow", 2⟩ (by decide)⟩

/-- C7: the responded images are an order-preserving subsequence of the
fetched page; the fetched page — the offset window of size `limit`
starting at `(page - 1) * limit` — is ordered by `taken_on` descending,
and so is the response. -/
theorem imagesOrdering (db : DB) (now : Int) (pp lp : Option Int) (tr sf : Option String) :
    (((imagesHandler db now pp lp tr sf).response.images.map (fun e => e.image)).Sublist
        (requestPage db now pp lp tr)) ∧
      ((requestPage db now pp lp tr).Pairwise fun a b => b.taken_on ≤ a.taken_on) ∧
      ((imagesHandler db now pp lp tr sf).response.images.Pairwise
        fun e f => f.image.taken_on ≤ e.image.taken_on) ∧
      requestPage db now pp lp tr =
        fetchPage db (requestWindow tr now) ((jsNumOr pp 1 - 1) * jsNumOr lp 20)
          (jsNumOr lp 20) := by
  have hsub : ((imagesHandler db now pp lp tr sf).response.images.map
      (fun e => e.image)).Sublist (requestPage db now pp lp tr) := by
    by_cases h : requestPage db now pp lp tr = []
    · rw [imagesHandler_of_empty db now pp lp tr sf h]
      simp
    · rw [imagesHandler_of_ne_nil db now pp lp tr sf h, List.map_map]
      have hcomp : ((fun e : EnrichedImage => e.image) ∘
          enrich (requestGroup db now pp lp tr)) = fun img => img := rfl
      rw [hcomp, List.map_id']
      exact List.filter_sublist _
  have hpw : (requestPage db now pp lp tr).Pairwise newestFirst := by
    rw [requestPage]
    exact fetchPage_pairwise db _ _ _
  refine ⟨hsub, hpw, ?_, rfl⟩
  have h2 := List.Pairwise.sublist hsub hpw
  rw [List.pairwise_map] at h2
  exact h2

/-- C8: a `/images/:id` request whose id matches no image row yields the
structured payload `{error: "Image not found", status: 404}` and never
issues the attribution query. -/
theorem imageByIdNotFound (db : DB) (id : String) (h : ∀ img ∈ db.images, img.id ≠ id) :
    imageByIdHandler db id =
      { response := .notFound "Image not found" 404, attributionQueryIssued := false } := by
  have hf : db.images.find? (fun img => img.id == id) = none :=
    List.find?_eq_none.mpr fun img hm => by simpa using h img hm
  simp [imageByIdHandler, hf]

theorem imageByIdNotFound_witness :
    (∀ img ∈ sampleDbOne.images, img.id ≠ "Z") ∧
      imageByIdHandler sampleDbOne "Z" =
        { response := .notFound "Image not found" 404, attributionQueryIssued := false } :=
  ⟨by decide, imageByIdNotFound sampleDbOne "Z" (by decide)⟩

/-- C9: an empty fetched page short-circuits the `/images` pipeline: the
attribution query is never issued and the response's images array is
empty (the grouping and filtering live only in the non-taken branch). -/
theorem emptyPageShortCircuit (db : DB) (now : Int) (pp lp : Option Int)
    (tr sf : Option String) (h : requestPage db now pp lp tr = []) :
    (imagesHandler db now pp lp tr sf).attributionQuery = none ∧
      (imagesHandler db now pp lp tr sf).response.images = [] := by
  rw [imagesHandler_of_empty db now pp lp tr sf h]
  exact ⟨rfl, rfl⟩

theorem emptyPageShortCircuit_witness :
    requestPage sampleDbOne 0 (some 2) none none = [] ∧
      (imagesHandler sampleDbOne 0 (some 2) none none none).attributionQuery = none :=
  ⟨by decide, (emptyPageShortCircuit sampleDbOne 0 (some 2) none none none (by decide)).1⟩

/-- C10: a `page` or `limit` parameter that parses to the number `0` is
replaced by its default (1 resp. 20) — the `||` defaulting applies to
numeric zero, not only to absent or non-numeric parameters, while any
non-zero parse is used literally. -/
theorem zeroParamsDefaulted (db : DB) (now : Int) (tr sf : Option String) :
    (∀ lp, (imagesHandler db now (some 0) lp tr sf).response.pagination.page = 1) ∧
      (∀ pp, (imagesHandler db now pp (some 0) tr sf).response.pagination.limit = 20) ∧
      (∀ n : Int, n ≠ 0 → jsNumOr (some n) 1 = n ∧ jsNumOr (some n) 20 = n) ∧
      jsNumOr none 1 = 1 ∧ jsNumOr none 20 = 20 := by
  refine ⟨fun lp => ?_, fun pp => ?_,
    fun n hn => ⟨by simp [jsNumOr, hn], by simp [jsNumOr, hn]⟩, rfl, rfl⟩
  · rw [(imagesHandler_page_limit db now (some 0) lp tr sf).1]
    rfl
  · rw [(imagesHandler_page_limit db now pp (some 0) tr sf).2]
    rfl

theorem zeroParamsDefaulted_witness :
    (imagesHandler sampleDbOne 0 (some 0) (some 0) none none).response.pagination.page = 1 ∧
      jsNumOr (some 7) 1 = 7 :=
  ⟨(zeroParamsDefaulted sampleDbOne 0 none none).1 (some 0),
    ((zeroParamsDefaulted sampleDbOne 0 none none).2.2.1 7 (by decide)).1⟩

end ChirpChirp
